import Mathlib

/-!
Shallow embedding of the `bitte` proc-macro crate (src/lib.rs): a
signature-rewriting engine that desugars `async fn` items in traits, impl
blocks, free functions and bare trait methods into explicit
`fn ... -> impl Future<Output = R> (+ Send)` form, adding a `Self: Sync`
where-predicate when shared access is required.

The `syn` syntax-tree types are embedded only as deeply as the source
inspects them; all parts the pass never looks inside (bodies, attribute
payloads, path prefixes, etc.) are kept as opaque strings so that
preservation statements are meaningful.
-/

namespace Bitte

/- Embedding of the fragment of `syn::Type` (with `syn::PathSegment`,
`syn::PathArguments`, `syn::GenericArgument`, `syn::TypeParamBound`) that
`analyze_receiver` and `Signature::desugar_async` inspect. -/
mutual

/-- The fragment of `syn::Type` the pass inspects: `Ty.path` carries the
leading-colon flag and the segment list; `Ty.reference` carries the
mutability flag; the `impl Trait` return type built by the rewriter is
`Ty.implTrait`; every other type form is opaque. -/
inductive Ty : Type where
  | path : Bool → List PathSeg → Ty
  | reference : Bool → Ty → Ty
  | implTrait : List TypeParamBound → Ty
  | unit : Ty
  | otherTy : String → Ty

inductive PathSeg : Type where
  | mk : String → PathArgs → PathSeg

inductive PathArgs : Type where
  | none : PathArgs
  | angleBracketed : List GenericArg → PathArgs
  | parenthesized : PathArgs

inductive GenericArg : Type where
  | type : Ty → GenericArg
  | otherArg : GenericArg

inductive TypeParamBound : Type where
  | future : Ty → TypeParamBound
  | send : TypeParamBound
  | otherBound : String → TypeParamBound

end

/-- `syn::Path::is_ident`: a single segment with no leading colon and no
path arguments, whose identifier equals `name`. -/
def path_is_ident (leadingColon : Bool) (segs : List PathSeg) (name : String) : Bool :=
  match leadingColon, segs with
  | false, [PathSeg.mk idStr PathArgs.none] => idStr == name
  | _, _ => false

/-- `syn::FnArg`.  A receiver argument is represented by its `ty` field,
the only part `analyze_receiver` reads (syn fills the implied type in for
sugared receivers: `Self` for `self`, `&Self` for `&self`, …).  A typed
argument keeps an opaque pattern plus its type. -/
inductive FnArg : Type where
  | receiver : Ty → FnArg
  | typed : String → Ty → FnArg

/-- Output of `analyze_receiver` (struct `ReceiverBounds` in the source). -/
structure ReceiverBounds where
  needs_send : Bool
  needs_sync : Bool
  deriving DecidableEq, Repr

/-- `analyze_receiver` from src/lib.rs.  Inspects the first input: an
`Arc<Self>` receiver yields both bounds; an immutably-borrowed receiver
yields only `needs_sync`; receivers of any other *non-path, non-immutable-
reference* type land in the wildcard arm and yield only `needs_send`.  A
path-typed receiver that fails any of the `Arc<Self>` tests falls out of
the `Type::Path` match arm and reaches the function-final default
`{needs_send: false, needs_sync: false}`, as does a first argument that is
not a receiver at all. -/
def analyze_receiver (inputs : List FnArg) : ReceiverBounds :=
  match inputs.head? with
  | some (FnArg.receiver ty) =>
    match ty with
    | Ty.path _lc segs =>
      match segs.getLast? with
      | some (PathSeg.mk idStr args) =>
        if idStr == "Arc" then
          match args with
          | PathArgs.angleBracketed [GenericArg.type (Ty.path lc2 inner)] =>
            if path_is_ident lc2 inner "Self" then ⟨true, true⟩
            else ⟨false, false⟩
          | _ => ⟨false, false⟩
        else ⟨false, false⟩
      | none => ⟨false, false⟩
    | Ty.reference false _ => ⟨false, true⟩
    | _ => ⟨true, false⟩
  | _ => ⟨false, false⟩

/-- `enum AsyncBound`: one parsed directive, `Send(enabled)` or
`Sync(enabled)`. -/
inductive AsyncBound : Type where
  | send : Bool → AsyncBound
  | sync : Bool → AsyncBound
  deriving DecidableEq, Repr

/-- A raw `[?]Ident` directive token pair as handed to
`<AsyncBound as Parse>::parse`: the optional leading `?` and the
identifier text. -/
structure RawDirective where
  negated : Bool
  ident : String
  deriving DecidableEq, Repr

/-- `<AsyncBound as Parse>::parse`: a leading `?` disables, then the
identifier must be `Send` or `Sync`; anything else is the error
`"Expected Send or Sync"`. -/
def AsyncBound.parse (d : RawDirective) : Except String AsyncBound :=
  let enabled := !d.negated
  if d.ident = "Send" then Except.ok (AsyncBound.send enabled)
  else if d.ident = "Sync" then Except.ok (AsyncBound.sync enabled)
  else Except.error "Expected Send or Sync"

/-- `struct AsyncBounds`: the merged capability configuration. -/
structure AsyncBounds where
  send : Bool
  sync : Bool
  deriving DecidableEq, Repr

/-- `impl Default for AsyncBounds`: both fields take the value of the
build-time `cfg!(feature = "threads")` switch, passed here explicitly as
`threads`. -/
def AsyncBounds.default (threads : Bool) : AsyncBounds :=
  ⟨threads, threads⟩

/-- `Punctuated::<AsyncBound, Token![,]>::parse_terminated`: the
directives are parsed in order and the first failure aborts. -/
def parse_directives : List RawDirective → Except String (List AsyncBound)
  | [] => Except.ok []
  | d :: rest =>
    match AsyncBound.parse d with
    | Except.error e => Except.error e
    | Except.ok b =>
      match parse_directives rest with
      | Except.error e => Except.error e
      | Except.ok bs => Except.ok (b :: bs)

/-- `syn::Meta` as far as `AsyncBounds::from_attribute` distinguishes it:
a bare path (`#[bitte]`) versus a list (`#[bitte(...)]`) holding the raw
directives. -/
inductive AttrMeta : Type where
  | path : AttrMeta
  | list : List RawDirective → AttrMeta

/-- `AsyncBounds::from_attribute`: start from the build-time default; if
the attribute is a `Meta::List`, parse its directives and fold them
left-to-right, each `Send(b)`/`Sync(b)` overwriting the corresponding
field. -/
def AsyncBounds.from_attribute (threads : Bool) (attr : AttrMeta) :
    Except String AsyncBounds :=
  match attr with
  | AttrMeta.path => Except.ok (AsyncBounds.default threads)
  | AttrMeta.list args =>
    match parse_directives args with
    | Except.error e => Except.error e
    | Except.ok parsed =>
      Except.ok (parsed.foldl
        (fun config arg =>
          match arg with
          | AsyncBound.send b => { config with send := b }
          | AsyncBound.sync b => { config with sync := b })
        (AsyncBounds.default threads))

/-- `syn::ReturnType`. -/
inductive ReturnType : Type where
  | default : ReturnType
  | ty : Ty → ReturnType

/-- A `syn::WherePredicate`: the `Self: Sync` predicate the rewriter
appends, or any other predicate kept opaque. -/
inductive WherePredicate : Type where
  | selfSync : WherePredicate
  | otherPred : String → WherePredicate

/-- `syn::Signature` as far as the pass touches it: the `async` flag (the
source stores `Option<Token![async]>`; only its presence matters), the
name, the generic parameter list (opaque), the optional where-clause
predicate list, the inputs and the return type.  `rest` stands for the
remaining fields (`constness`, `unsafety`, `abi`, `variadic`, …) the pass
never reads or writes. -/
structure Signature where
  asyncness : Bool
  ident : String
  genericParams : List String
  whereClause : Option (List WherePredicate)
  inputs : List FnArg
  output : ReturnType
  rest : String

/-- `add_self_sync_bound`: materialise an empty where-clause if absent,
then push the `Self: Sync` predicate. -/
def add_self_sync_bound (sig : Signature) : Signature :=
  { sig with whereClause := some (sig.whereClause.getD [] ++ [WherePredicate.selfSync]) }

/-- `<Signature as DesugarAsync>::desugar_async`: clear the `async` flag,
take the declared output type (unit if defaulted), build the
`impl Future<Output = R>` bound list with `Send` appended when the
configured or inferred transfer requirement holds, install it as the new
return type, and append `Self: Sync` when the configured or inferred
shared requirement holds. -/
def Signature.desugar_async (config : AsyncBounds) (sig : Signature) : Signature :=
  let output_type : Ty :=
    match sig.output with
    | ReturnType.default => Ty.unit
    | ReturnType.ty t => t
  let receiver_bounds := analyze_receiver sig.inputs
  let bounds : List TypeParamBound :=
    [TypeParamBound.future output_type] ++
      (if config.send || receiver_bounds.needs_send then [TypeParamBound.send] else [])
  let sig1 : Signature :=
    { sig with asyncness := false, output := ReturnType.ty (Ty.implTrait bounds) }
  if config.sync || receiver_bounds.needs_sync then add_self_sync_bound sig1 else sig1

/-- The declared result type `R` the rewriter captures: the unit type when
the return type is defaulted. -/
def declared_output_ty : ReturnType → Ty
  | ReturnType.default => Ty.unit
  | ReturnType.ty t => t

/-- The attributes the pass pushes (`#[must_use]`, the seven-lint `allow`
list used when a body is present, the two-lint `allow` list used
otherwise), plus opaque pre-existing attributes. -/
inductive Attr : Type where
  | mustUse : Attr
  | allowRich : Attr
  | allowNarrow : Attr
  | otherAttr : String → Attr
  deriving DecidableEq, Repr

/-- A function body: either the original opaque block or the
`{ async move #body }` wrapper the pass builds around it. -/
inductive Block : Type where
  | source : String → Block
  | asyncMove : Block → Block
  deriving DecidableEq, Repr

/-- `syn::TraitItemFn`: attributes, signature, optional default body. -/
structure TraitItemFn where
  attrs : List Attr
  sig : Signature
  default : Option Block

/-- `<TraitItemFn as DesugarAsync>::desugar_async`: only when the `async`
flag is set, rewrite the signature, push `#[must_use]`, push the rich
lint-suppression set when a default body is present (the narrow one
otherwise), and wrap the default body, if any, in `async move`. -/
def TraitItemFn.desugar_async (config : AsyncBounds) (f : TraitItemFn) : TraitItemFn :=
  if f.sig.asyncness then
    let lintAttr := if f.default.isSome then Attr.allowRich else Attr.allowNarrow
    { f with
      sig := Signature.desugar_async config f.sig
      attrs := f.attrs ++ [Attr.mustUse, lintAttr]
      default := f.default.map Block.asyncMove }
  else f

/-- `syn::ImplItemFn`: attributes, signature, body. -/
structure ImplItemFn where
  attrs : List Attr
  sig : Signature
  block : Block

/-- `<ImplItemFn as DesugarAsync>::desugar_async`: only when the `async`
flag is set, rewrite the signature, wrap the stored body in `async move`,
push `#[must_use]` and the rich lint-suppression set. -/
def ImplItemFn.desugar_async (config : AsyncBounds) (f : ImplItemFn) : ImplItemFn :=
  if f.sig.asyncness then
    { f with
      sig := Signature.desugar_async config f.sig
      block := Block.asyncMove f.block
      attrs := f.attrs ++ [Attr.mustUse, Attr.allowRich] }
  else f

/-- `syn::ItemFn`: a free function. -/
structure ItemFn where
  attrs : List Attr
  sig : Signature
  block : Block

/-- `<ItemFn as DesugarAsync>::desugar_async`: only when the `async` flag
is set, rewrite the signature and push `#[must_use]` plus the narrow
lint-suppression set (the free-function body is left as it is). -/
def ItemFn.desugar_async (config : AsyncBounds) (f : ItemFn) : ItemFn :=
  if f.sig.asyncness then
    { f with
      sig := Signature.desugar_async config f.sig
      attrs := f.attrs ++ [Attr.mustUse, Attr.allowNarrow] }
  else f

/-- `syn::TraitItem`: a method entry or any other trait item, opaque. -/
inductive TraitItem : Type where
  | fn : TraitItemFn → TraitItem
  | otherItem : String → TraitItem

/-- `syn::ItemTrait` as far as the pass touches it: the item list, plus
the name and the untouched remainder of the node. -/
structure ItemTrait where
  ident : String
  items : List TraitItem
  rest : String

/-- The per-item step of the `ItemTrait` walk: a method with the `async`
flag set is desugared, everything else passes through. -/
def trait_walk (config : AsyncBounds) (item : TraitItem) : TraitItem :=
  match item with
  | TraitItem.fn method =>
    if method.sig.asyncness then TraitItem.fn (TraitItemFn.desugar_async config method)
    else TraitItem.fn method
  | TraitItem.otherItem s => TraitItem.otherItem s

/-- `<ItemTrait as DesugarAsync>::desugar_async`: walk the direct item
list once, desugaring exactly the `async` methods. -/
def ItemTrait.desugar_async (config : AsyncBounds) (t : ItemTrait) : ItemTrait :=
  { t with items := t.items.map (trait_walk config) }

/-- `syn::ImplItem`: a method entry or any other impl item, opaque. -/
inductive ImplItem : Type where
  | fn : ImplItemFn → ImplItem
  | otherItem : String → ImplItem

/-- `syn::ItemImpl` as far as the pass touches it. -/
structure ItemImpl where
  selfTy : String
  items : List ImplItem
  rest : String

/-- The per-item step of the `ItemImpl` walk. -/
def impl_walk (config : AsyncBounds) (item : ImplItem) : ImplItem :=
  match item with
  | ImplItem.fn method =>
    if method.sig.asyncness then ImplItem.fn (ImplItemFn.desugar_async config method)
    else ImplItem.fn method
  | ImplItem.otherItem s => ImplItem.otherItem s

/-- `<ItemImpl as DesugarAsync>::desugar_async`: walk the direct item
list once, desugaring exactly the `async` methods. -/
def ItemImpl.desugar_async (config : AsyncBounds) (i : ItemImpl) : ItemImpl :=
  { i with items := i.items.map (impl_walk config) }

/-- The attribute arguments handed to the `bitte` entry point: empty, or a
token stream that reparses as a directive list. -/
inductive AttrArgs : Type where
  | empty : AttrArgs
  | tokens : List RawDirective → AttrArgs

/-- The `let config = ...` prelude of `bitte`: empty arguments select the
build-time default, otherwise the arguments are rewrapped as
`#[bitte(#args)]` and resolved by `AsyncBounds::from_attribute`. -/
def resolve_config (threads : Bool) (args : AttrArgs) : Except String AsyncBounds :=
  match args with
  | AttrArgs.empty => Except.ok (AsyncBounds.default threads)
  | AttrArgs.tokens ds => AsyncBounds.from_attribute threads (AttrMeta.list ds)

/-- What `syn::parse::<T>` yields on the macro input for each of the four
shapes the entry point tries, in the order it tries them.  Parsing itself
is the external front end; its four possible outcomes on a given token
stream are the shallow interface this embedding takes as input. -/
structure ParsedInputs where
  as_trait : Option ItemTrait
  as_impl : Option ItemImpl
  as_fn : Option ItemFn
  as_trait_fn : Option TraitItemFn

/-- The entry point's result: one rewritten tree, or a compile error
(serialisation of the tree to tokens is the external back end). -/
inductive MacroOutput : Type where
  | renderedTrait : ItemTrait → MacroOutput
  | renderedImpl : ItemImpl → MacroOutput
  | renderedFn : ItemFn → MacroOutput
  | renderedTraitFn : TraitItemFn → MacroOutput
  | compileError : String → MacroOutput

/-- The diagnostic text of the final fallback in `bitte`. -/
def no_shape_msg : String :=
  "bitte can only be applied to traits, impl blocks, functions, or trait methods"

/-- `pub fn bitte`: resolve the configuration (an error there aborts
immediately), then try the four structural interpretations in order —
trait, impl block, function, trait method — returning the first rewrite
that applies, or the fallback diagnostic when none does. -/
def bitte (threads : Bool) (args : AttrArgs) (input : ParsedInputs) : MacroOutput :=
  match resolve_config threads args with
  | Except.error e => MacroOutput.compileError e
  | Except.ok config =>
    match input.as_trait with
    | some t => MacroOutput.renderedTrait (ItemTrait.desugar_async config t)
    | none =>
      match input.as_impl with
      | some i => MacroOutput.renderedImpl (ItemImpl.desugar_async config i)
      | none =>
        match input.as_fn with
        | some f => MacroOutput.renderedFn (ItemFn.desugar_async config f)
        | none =>
          match input.as_trait_fn with
          | some tf => MacroOutput.renderedTraitFn (TraitItemFn.desugar_async config tf)
          | none => MacroOutput.compileError no_shape_msg

/-! Concrete sample values, used to instantiate the theorems below. -/

/-- The path type `Self` (syn writes this implied type for a bare `self`
receiver). -/
def self_path_ty : Ty := Ty.path false [PathSeg.mk "Self" PathArgs.none]

/-- The path segment `Arc<Self>`. -/
def arc_self_seg : PathSeg :=
  PathSeg.mk "Arc" (PathArgs.angleBracketed [GenericArg.type self_path_ty])

/-- The receiver type of `self: Arc<Self>`. -/
def arc_self_ty : Ty := Ty.path false [arc_self_seg]

/-- The receiver type of `self: Rc<Self>`: a non-`Arc` smart-pointer
receiver. -/
def rc_self_ty : Ty :=
  Ty.path false [PathSeg.mk "Rc" (PathArgs.angleBracketed [GenericArg.type self_path_ty])]

/-- The receiver type of `&self`. -/
def ref_self_ty : Ty := Ty.reference false self_path_ty

/-- The receiver type of `&mut self`. -/
def ref_mut_self_ty : Ty := Ty.reference true self_path_ty

/-- The test `segs.getLast?` matches `Arc` with exactly one
angle-bracketed type argument that `is_ident`s to `Self` — the condition
under which the `Type::Path` arm of `analyze_receiver` returns early with
both bounds (any failure falls through to the function-final default). -/
def arc_self_check (segs : List PathSeg) : Bool :=
  match segs.getLast? with
  | some (PathSeg.mk idStr args) =>
    idStr == "Arc" &&
      (match args with
       | PathArgs.angleBracketed [GenericArg.type (Ty.path lc2 inner)] =>
         path_is_ident lc2 inner "Self"
       | _ => false)
  | none => false

/-- An `async fn method(recv) -> String` sample signature with the given
receiver type. -/
def sample_sig (recv : Ty) : Signature :=
  { asyncness := true
    ident := "method"
    genericParams := []
    whereClause := none
    inputs := [FnArg.receiver recv]
    output := ReturnType.ty (Ty.path false [PathSeg.mk "String" PathArgs.none])
    rest := "" }

/-- A sample opaque method body. -/
def sample_body : Block := Block.source "{ 42 }"

/-- A non-`async` sample signature. -/
def nonasync_sig : Signature :=
  { asyncness := false
    ident := "sync_method"
    genericParams := []
    whereClause := none
    inputs := [FnArg.receiver ref_self_ty]
    output := ReturnType.default
    rest := "" }

/-- A non-`async` required trait method. -/
def nonasync_trait_fn : TraitItemFn := ⟨[], nonasync_sig, none⟩

/-- A non-`async` impl method. -/
def nonasync_impl_fn : ImplItemFn := ⟨[], nonasync_sig, sample_body⟩

/-- A sample trait holding one non-`async` method. -/
def sample_trait : ItemTrait := ⟨"AsyncTrait", [TraitItem.fn nonasync_trait_fn], ""⟩

/-- A sample impl block holding one non-`async` method. -/
def sample_impl : ItemImpl := ⟨"MyStruct", [ImplItem.fn nonasync_impl_fn], ""⟩

/-- An `async` impl method with a body. -/
def async_impl_fn : ImplItemFn := ⟨[], sample_sig ref_self_ty, sample_body⟩

/-- An `async` trait method with a default body. -/
def async_default_fn : TraitItemFn := ⟨[], sample_sig ref_self_ty, some sample_body⟩

/-- An `async` trait method without a default body. -/
def async_required_fn : TraitItemFn := ⟨[], sample_sig ref_self_ty, none⟩

/-- A macro input none of the four parses accepts. -/
def empty_inputs : ParsedInputs := ⟨none, none, none, none⟩

/-! Helper lemmas shared by the claim theorems. -/

/-- A receiver whose type path ends in the `Arc<Self>` segment is
classified as needing both `Send` and `Sync`, whatever precedes the last
segment. -/
theorem analyze_receiver_arc_self (lc : Bool) (pre : List PathSeg) (tail : List FnArg) :
    analyze_receiver (FnArg.receiver (Ty.path lc (pre ++ [arc_self_seg])) :: tail)
      = ⟨true, true⟩ := by
  have hlast : (pre ++ [arc_self_seg]).getLast? = some arc_self_seg :=
    List.getLast?_concat _
  simp [analyze_receiver, hlast, arc_self_seg, self_path_ty, path_is_ident]

/-- An immutably borrowed receiver is classified as needing only `Sync`. -/
theorem analyze_receiver_ref (inner : Ty) (tail : List FnArg) :
    analyze_receiver (FnArg.receiver (Ty.reference false inner) :: tail)
      = ⟨false, true⟩ := rfl

/-- The rewritten return type: the `Future` bound over the declared output
type, with `Send` appended exactly when the configured or the inferred
transfer requirement holds. -/
theorem desugar_async_output (config : AsyncBounds) (sig : Signature) :
    (Signature.desugar_async config sig).output
      = ReturnType.ty (Ty.implTrait
          ([TypeParamBound.future (declared_output_ty sig.output)] ++
            (if config.send || (analyze_receiver sig.inputs).needs_send
             then [TypeParamBound.send] else []))) := by
  obtain ⟨a, idn, gp, wc, inp, out, r⟩ := sig
  cases out <;>
    simp only [Signature.desugar_async, add_self_sync_bound, declared_output_ty] <;>
    split <;> rfl

/-- The rewritten where-clause: `Self: Sync` is appended to the existing
predicates exactly when the configured or the inferred shared requirement
holds; otherwise the where-clause is untouched. -/
theorem desugar_async_whereClause (config : AsyncBounds) (sig : Signature) :
    (Signature.desugar_async config sig).whereClause
      = (if config.sync || (analyze_receiver sig.inputs).needs_sync
         then some (sig.whereClause.getD [] ++ [WherePredicate.selfSync])
         else sig.whereClause) := by
  obtain ⟨a, idn, gp, wc, inp, out, r⟩ := sig
  cases out <;>
    simp only [Signature.desugar_async, add_self_sync_bound] <;>
    split <;> rfl

/-- The signature rewrite clears the `async` flag and leaves the name,
inputs, generic parameters and remaining fields unchanged. -/
theorem desugar_async_frame (config : AsyncBounds) (sig : Signature) :
    (Signature.desugar_async config sig).asyncness = false ∧
    (Signature.desugar_async config sig).ident = sig.ident ∧
    (Signature.desugar_async config sig).genericParams = sig.genericParams ∧
    (Signature.desugar_async config sig).inputs = sig.inputs ∧
    (Signature.desugar_async config sig).rest = sig.rest := by
  obtain ⟨a, idn, gp, wc, inp, out, r⟩ := sig
  cases out <;>
    simp only [Signature.desugar_async, add_self_sync_bound] <;>
    split <;> exact ⟨rfl, rfl, rfl, rfl, rfl⟩

/-! The claim theorems. -/

/-- Claim C1: for every deferred method whose receiver type path ends in
`Arc<Self>`, and every directive list that resolves (including
`?Send, ?Sync`), the rewritten signature both carries the `Send` bound on
the returned `impl Future` and appends the `Self: Sync` predicate: the
merge `config.send || needs_send` / `config.sync || needs_sync` is an OR,
so the receiver-inferred requirements survive any disabling directive. -/
theorem c1_arc_self_keeps_both_bounds (threads : Bool) (ds : List RawDirective)
    (config : AsyncBounds) (sig : Signature) (pre : List PathSeg) (lc : Bool)
    (tail : List FnArg)
    (hcfg : AsyncBounds.from_attribute threads (AttrMeta.list ds) = Except.ok config)
    (hrecv : sig.inputs = FnArg.receiver (Ty.path lc (pre ++ [arc_self_seg])) :: tail) :
    (Signature.desugar_async config sig).output
        = ReturnType.ty (Ty.implTrait
            [TypeParamBound.future (declared_output_ty sig.output), TypeParamBound.send]) ∧
    WherePredicate.selfSync ∈ (Signature.desugar_async config sig).whereClause.getD [] := by
  have hra : analyze_receiver sig.inputs = ⟨true, true⟩ := by
    rw [hrecv]; exact analyze_receiver_arc_self lc pre tail
  constructor
  · rw [desugar_async_output config sig, hra]
    simp
  · rw [desugar_async_whereClause config sig, hra]
    simp

/-- Witness for C1 at the directive list `?Send, ?Sync` (which resolves to
the all-disabled configuration) and a concrete `async fn method(self:
Arc<Self>) -> String`. -/
theorem c1_witness :
    (Signature.desugar_async ⟨false, false⟩ (sample_sig arc_self_ty)).output
        = ReturnType.ty (Ty.implTrait
            [TypeParamBound.future (declared_output_ty (sample_sig arc_self_ty).output),
             TypeParamBound.send]) ∧
    WherePredicate.selfSync ∈
      (Signature.desugar_async ⟨false, false⟩ (sample_sig arc_self_ty)).whereClause.getD [] :=
  c1_arc_self_keeps_both_bounds false
    [RawDirective.mk true "Send", RawDirective.mk true "Sync"] ⟨false, false⟩
    (sample_sig arc_self_ty) [] false [] rfl rfl

/-- Claim C2, counterexample: a non-`Arc` smart-pointer receiver
`self: Rc<Self>` — explicitly placed by the claim in the conservative
`{needsTransferable := true, needsShared := false}` bucket — is in fact
classified as `{false, false}`: it enters the `Type::Path` arm of
`analyze_receiver`, fails the `Arc` test, and falls through to the
function-final default instead of reaching the wildcard arm. -/
theorem c2_counterexample :
    analyze_receiver [FnArg.receiver rc_self_ty] = ⟨false, false⟩ ∧
    ¬ (analyze_receiver [FnArg.receiver rc_self_ty]
        = (⟨true, false⟩ : ReceiverBounds)) := by
  decide

/-- Claim C2 as amended: classification is total, and the conservative
`{needs_send := true, needs_sync := false}` bucket holds exactly the
receivers whose type is neither a path nor an immutable reference
(`&mut self`, and degenerate non-path forms); a *path-typed* receiver that
is not exactly `Arc<Self>` — plain `self` (implied type `Self`), `Rc<Self>`,
`Box<Self>`, … — instead falls through to `{false, false}`, the bucket of
methods with no receiver. -/
theorem c2_amended_classification (tail : List FnArg) (inner : Ty) (s : String)
    (bs : List TypeParamBound) (lc : Bool) (segs : List PathSeg) :
    analyze_receiver (FnArg.receiver (Ty.reference true inner) :: tail) = ⟨true, false⟩ ∧
    analyze_receiver (FnArg.receiver (Ty.otherTy s) :: tail) = ⟨true, false⟩ ∧
    analyze_receiver (FnArg.receiver Ty.unit :: tail) = ⟨true, false⟩ ∧
    analyze_receiver (FnArg.receiver (Ty.implTrait bs) :: tail) = ⟨true, false⟩ ∧
    analyze_receiver (FnArg.receiver (Ty.path lc segs) :: tail)
      = (if arc_self_check segs then ⟨true, true⟩ else ⟨false, false⟩) := by
  refine ⟨rfl, rfl, rfl, rfl, ?_⟩
  simp only [analyze_receiver, arc_self_check, List.head?_cons]
  induction segs using List.reverseRecOn with
  | nil => simp
  | append_singleton pre seg _ih =>
    obtain ⟨idStr, args⟩ := seg
    simp only [List.getLast?_concat]
    cases hid : (idStr == "Arc") with
    | false => simp [hid]
    | true =>
      simp only [hid, if_true, Bool.true_and]
      cases args with
      | none => simp
      | parenthesized => simp
      | angleBracketed l =>
        match l with
        | [] => simp
        | GenericArg.otherArg :: r => cases r <;> simp
        | [GenericArg.type t] => cases t <;> simp
        | GenericArg.type t :: b :: r => simp

/-- Claim C3: for every deferred method with a `&self` receiver, under the
configuration an empty directive list yields when the build-time switch is
false, the rewrite appends `Self: Sync` to the where-clause and the
returned `impl Future` carries no `Send` bound. -/
theorem c3_borrowed_immutable (sig : Signature) (inner : Ty) (tail : List FnArg)
    (hrecv : sig.inputs = FnArg.receiver (Ty.reference false inner) :: tail) :
    (Signature.desugar_async (AsyncBounds.default false) sig).whereClause
        = some (sig.whereClause.getD [] ++ [WherePredicate.selfSync]) ∧
    (Signature.desugar_async (AsyncBounds.default false) sig).output
        = ReturnType.ty (Ty.implTrait [TypeParamBound.future (declared_output_ty sig.output)]) ∧
    (∀ bounds,
      (Signature.desugar_async (AsyncBounds.default false) sig).output
          = ReturnType.ty (Ty.implTrait bounds) →
      TypeParamBound.send ∉ bounds) := by
  have hra : analyze_receiver sig.inputs = ⟨false, true⟩ := by
    rw [hrecv]; exact analyze_receiver_ref inner tail
  have hout := desugar_async_output (AsyncBounds.default false) sig
  rw [hra] at hout
  simp only [AsyncBounds.default, Bool.or_false, if_neg, Bool.false_eq_true,
    not_false_eq_true, List.append_nil] at hout
  refine ⟨?_, hout, ?_⟩
  · rw [desugar_async_whereClause (AsyncBounds.default false) sig, hra]
    simp [AsyncBounds.default]
  · intro bounds hb
    simp only [AsyncBounds.default] at hb
    rw [hout] at hb
    obtain rfl : [TypeParamBound.future (declared_output_ty sig.output)] = bounds := by
      injection hb with h1
      injection h1
    simp

/-- Witness for C3 at a concrete `async fn method(&self) -> String`. -/
theorem c3_witness :
    (Signature.desugar_async (AsyncBounds.default false) (sample_sig ref_self_ty)).whereClause
        = some ((sample_sig ref_self_ty).whereClause.getD [] ++ [WherePredicate.selfSync]) ∧
    (Signature.desugar_async (AsyncBounds.default false) (sample_sig ref_self_ty)).output
        = ReturnType.ty (Ty.implTrait
            [TypeParamBound.future (declared_output_ty (sample_sig ref_self_ty).output)]) ∧
    (∀ bounds,
      (Signature.desugar_async (AsyncBounds.default false) (sample_sig ref_self_ty)).output
          = ReturnType.ty (Ty.implTrait bounds) →
      TypeParamBound.send ∉ bounds) :=
  c3_borrowed_immutable (sample_sig ref_self_ty) self_path_ty [] rfl

/-- Claim C4: the signature rewrite clears the `async` flag, leaves the
name, parameter list, generic parameter list and remaining fields
unchanged, replaces the return type by an `impl Future` whose `Output` is
the declared result type (unit when defaulted), and, exactly when shared
access is required, appends `Self: Sync` to the existing where-clause
predicates without disturbing them (leaving the where-clause untouched
otherwise). -/
theorem c4_rewrite_effects (config : AsyncBounds) (sig : Signature) :
    (Signature.desugar_async config sig).asyncness = false ∧
    (Signature.desugar_async config sig).ident = sig.ident ∧
    (Signature.desugar_async config sig).inputs = sig.inputs ∧
    (Signature.desugar_async config sig).genericParams = sig.genericParams ∧
    (Signature.desugar_async config sig).rest = sig.rest ∧
    (∃ tailBounds, (Signature.desugar_async config sig).output
        = ReturnType.ty (Ty.implTrait
            (TypeParamBound.future (declared_output_ty sig.output) :: tailBounds))) ∧
    ((config.sync || (analyze_receiver sig.inputs).needs_sync) = true →
      (Signature.desugar_async config sig).whereClause
        = some (sig.whereClause.getD [] ++ [WherePredicate.selfSync])) ∧
    ((config.sync || (analyze_receiver sig.inputs).needs_sync) = false →
      (Signature.desugar_async config sig).whereClause = sig.whereClause) := by
  obtain ⟨h1, h2, h3, h4, h5⟩ := desugar_async_frame config sig
  refine ⟨h1, h2, h4, h3, h5, ?_, ?_, ?_⟩
  · exact ⟨_, desugar_async_output config sig⟩
  · intro hc
    rw [desugar_async_whereClause config sig, hc, if_pos rfl]
  · intro hc
    rw [desugar_async_whereClause config sig, hc]
    simp

/-- Witness for C4 at a concrete `async fn method(&self) -> String` and
the all-disabled configuration: the flag is cleared and the shared-access
branch fires from the inferred requirement. -/
theorem c4_witness :
    (Signature.desugar_async ⟨false, false⟩ (sample_sig ref_self_ty)).asyncness = false ∧
    (Signature.desugar_async ⟨false, false⟩ (sample_sig ref_self_ty)).whereClause
        = some ((sample_sig ref_self_ty).whereClause.getD [] ++ [WherePredicate.selfSync]) :=
  ⟨(c4_rewrite_effects ⟨false, false⟩ (sample_sig ref_self_ty)).1,
   (c4_rewrite_effects ⟨false, false⟩ (sample_sig ref_self_ty)).2.2.2.2.2.2.1 rfl⟩

/-- Claim C5: once the configuration resolves, the entry point tries the
four structural interpretations in the fixed order trait, impl block,
function, trait method, commits to the first that matches (never reaching
a later one), and produces the fallback diagnostic — carrying no tree —
exactly when all four interpretations fail. -/
theorem c5_dispatch_order (threads : Bool) (args : AttrArgs) (config : AsyncBounds)
    (input : ParsedInputs)
    (hcfg : resolve_config threads args = Except.ok config) :
    (∀ t, input.as_trait = some t →
        bitte threads args input
          = MacroOutput.renderedTrait (ItemTrait.desugar_async config t)) ∧
    (input.as_trait = none → ∀ i, input.as_impl = some i →
        bitte threads args input
          = MacroOutput.renderedImpl (ItemImpl.desugar_async config i)) ∧
    (input.as_trait = none → input.as_impl = none → ∀ f, input.as_fn = some f →
        bitte threads args input
          = MacroOutput.renderedFn (ItemFn.desugar_async config f)) ∧
    (input.as_trait = none → input.as_impl = none → input.as_fn = none →
        ∀ tf, input.as_trait_fn = some tf →
        bitte threads args input
          = MacroOutput.renderedTraitFn (TraitItemFn.desugar_async config tf)) ∧
    (bitte threads args input = MacroOutput.compileError no_shape_msg
      ↔ input.as_trait = none ∧ input.as_impl = none ∧ input.as_fn = none ∧
        input.as_trait_fn = none) := by
  unfold bitte
  rw [hcfg]
  refine ⟨?_, ?_, ?_, ?_, ?_⟩
  · intro t ht; rw [ht]
  · intro h1 i hi; rw [h1, hi]
  · intro h1 h2 f hf; rw [h1, h2, hf]
  · intro h1 h2 h3 tf htf; rw [h1, h2, h3, htf]
  · constructor
    · intro h
      cases ht : input.as_trait with
      | some t => rw [ht] at h; cases h
      | none =>
        rw [ht] at h
        cases hi : input.as_impl with
        | some i => rw [hi] at h; cases h
        | none =>
          rw [hi] at h
          cases hf : input.as_fn with
          | some f => rw [hf] at h; cases h
          | none =>
            rw [hf] at h
            cases htf : input.as_trait_fn with
            | some tf => rw [htf] at h; cases h
            | none => exact ⟨rfl, rfl, rfl, rfl⟩
    · rintro ⟨h1, h2, h3, h4⟩
      rw [h1, h2, h3, h4]

/-- Witness for C5: on an input matching none of the four shapes, with
empty directive arguments, the entry point yields exactly the fallback
diagnostic. -/
theorem c5_witness :
    bitte true AttrArgs.empty empty_inputs = MacroOutput.compileError no_shape_msg :=
  (c5_dispatch_order true AttrArgs.empty (AsyncBounds.default true) empty_inputs
    rfl).2.2.2.2.mpr ⟨rfl, rfl, rfl, rfl⟩

/-- Claim C6: directive resolution folds left-to-right over the default
with last-write-wins per capability — `[A, ?A]` and `[?A]` resolve to the
same configuration for each recognized capability name — and the empty
directive list resolves to the configuration whose two fields both equal
the build-time switch. -/
theorem c6_fold_last_write_wins (threads : Bool) (n : String)
    (hn : n = "Send" ∨ n = "Sync") :
    AsyncBounds.from_attribute threads
        (AttrMeta.list [RawDirective.mk false n, RawDirective.mk true n])
      = AsyncBounds.from_attribute threads (AttrMeta.list [RawDirective.mk true n]) ∧
    AsyncBounds.from_attribute threads (AttrMeta.list [])
      = Except.ok (AsyncBounds.default threads) ∧
    AsyncBounds.default threads = ⟨threads, threads⟩ := by
  rcases hn with h | h <;> subst h <;> exact ⟨rfl, rfl, rfl⟩

/-- Witness for C6 at `Send` and a true build-time switch: `[Send, ?Send]`
and `[?Send]` resolve identically, and no directives keep the default. -/
theorem c6_witness :
    AsyncBounds.from_attribute true
        (AttrMeta.list [RawDirective.mk false "Send", RawDirective.mk true "Send"])
      = AsyncBounds.from_attribute true (AttrMeta.list [RawDirective.mk true "Send"]) ∧
    AsyncBounds.from_attribute true (AttrMeta.list [])
      = Except.ok (AsyncBounds.default true) ∧
    AsyncBounds.default true = ⟨true, true⟩ :=
  c6_fold_last_write_wins true "Send" (Or.inl rfl)

/-- Parsing a directive list containing an unrecognized capability name
always fails. -/
theorem parse_directives_error (ds : List RawDirective) (d : RawDirective)
    (hmem : d ∈ ds) (h1 : d.ident ≠ "Send") (h2 : d.ident ≠ "Sync") :
    ∃ e, parse_directives ds = Except.error e := by
  induction ds with
  | nil => cases hmem
  | cons hd tl ih =>
    rcases List.mem_cons.mp hmem with rfl | hmem2
    · refine ⟨"Expected Send or Sync", ?_⟩
      simp [parse_directives, AsyncBound.parse, h1, h2]
    · cases hp : AsyncBound.parse hd with
      | error e => exact ⟨e, by simp [parse_directives, hp]⟩
      | ok b =>
        rcases ih hmem2 with ⟨e, he⟩
        exact ⟨e, by simp [parse_directives, hp, he]⟩

/-- Claim C7: a directive list containing any capability name other than
the two recognized ones makes the whole transformation fail with a
diagnostic, producing no rewritten tree for the declaration, whatever the
input parses as. -/
theorem c7_unknown_capability (threads : Bool) (ds : List RawDirective)
    (input : ParsedInputs) (d : RawDirective) (hmem : d ∈ ds)
    (h1 : d.ident ≠ "Send") (h2 : d.ident ≠ "Sync") :
    ∃ msg, bitte threads (AttrArgs.tokens ds) input = MacroOutput.compileError msg := by
  rcases parse_directives_error ds d hmem h1 h2 with ⟨e, he⟩
  exact ⟨e, by simp [bitte, resolve_config, AsyncBounds.from_attribute, he]⟩

/-- Witness for C7 at the directive list `[Teleport]`. -/
theorem c7_witness :
    ∃ msg, bitte true (AttrArgs.tokens [RawDirective.mk false "Teleport"]) empty_inputs
      = MacroOutput.compileError msg :=
  c7_unknown_capability true [RawDirective.mk false "Teleport"] empty_inputs
    (RawDirective.mk false "Teleport") (List.mem_singleton.mpr rfl)
    (by decide) (by decide)

/-- Claim C8: transforming a trait or an impl block walks only the direct
item list (its length is preserved, as are the surrounding fields), every
non-`async` method and every non-method item passes through at its
position unmodified, and an `async` method at a position is replaced
exactly by its desugaring. -/
theorem c8_untouched_methods_pass_through (config : AsyncBounds)
    (t : ItemTrait) (im : ItemImpl) :
    (ItemTrait.desugar_async config t).ident = t.ident ∧
    (ItemTrait.desugar_async config t).rest = t.rest ∧
    (ItemTrait.desugar_async config t).items.length = t.items.length ∧
    (∀ (i : Nat) (f : TraitItemFn), t.items[i]? = some (TraitItem.fn f) → f.sig.asyncness = false →
        (ItemTrait.desugar_async config t).items[i]? = some (TraitItem.fn f)) ∧
    (∀ (i : Nat) (s : String), t.items[i]? = some (TraitItem.otherItem s) →
        (ItemTrait.desugar_async config t).items[i]? = some (TraitItem.otherItem s)) ∧
    (∀ (i : Nat) (f : TraitItemFn), t.items[i]? = some (TraitItem.fn f) → f.sig.asyncness = true →
        (ItemTrait.desugar_async config t).items[i]?
          = some (TraitItem.fn (TraitItemFn.desugar_async config f))) ∧
    (ItemImpl.desugar_async config im).selfTy = im.selfTy ∧
    (ItemImpl.desugar_async config im).rest = im.rest ∧
    (ItemImpl.desugar_async config im).items.length = im.items.length ∧
    (∀ (i : Nat) (f : ImplItemFn), im.items[i]? = some (ImplItem.fn f) → f.sig.asyncness = false →
        (ItemImpl.desugar_async config im).items[i]? = some (ImplItem.fn f)) ∧
    (∀ (i : Nat) (s : String), im.items[i]? = some (ImplItem.otherItem s) →
        (ItemImpl.desugar_async config im).items[i]? = some (ImplItem.otherItem s)) ∧
    (∀ (i : Nat) (f : ImplItemFn), im.items[i]? = some (ImplItem.fn f) → f.sig.asyncness = true →
        (ItemImpl.desugar_async config im).items[i]?
          = some (ImplItem.fn (ImplItemFn.desugar_async config f))) := by
  refine ⟨rfl, rfl, by simp [ItemTrait.desugar_async], ?_, ?_, ?_,
          rfl, rfl, by simp [ItemImpl.desugar_async], ?_, ?_, ?_⟩
  · intro i f hx hax
    simp [ItemTrait.desugar_async, List.getElem?_map, hx, trait_walk, hax]
  · intro i s hx
    simp [ItemTrait.desugar_async, List.getElem?_map, hx, trait_walk]
  · intro i f hx hax
    simp [ItemTrait.desugar_async, List.getElem?_map, hx, trait_walk, hax]
  · intro i f hx hax
    simp [ItemImpl.desugar_async, List.getElem?_map, hx, impl_walk, hax]
  · intro i s hx
    simp [ItemImpl.desugar_async, List.getElem?_map, hx, impl_walk]
  · intro i f hx hax
    simp [ItemImpl.desugar_async, List.getElem?_map, hx, impl_walk, hax]

/-- Witness for C8: the non-`async` method of the sample trait and the
sample impl block survives the walk untouched. -/
theorem c8_witness :
    (ItemTrait.desugar_async ⟨true, true⟩ sample_trait).items[0]?
        = some (TraitItem.fn nonasync_trait_fn) ∧
    (ItemImpl.desugar_async ⟨true, true⟩ sample_impl).items[0]?
        = some (ImplItem.fn nonasync_impl_fn) :=
  ⟨(c8_untouched_methods_pass_through ⟨true, true⟩ sample_trait sample_impl).2.2.2.1
      0 nonasync_trait_fn rfl rfl,
   (c8_untouched_methods_pass_through ⟨true, true⟩ sample_trait sample_impl).2.2.2.2.2.2.2.2.2.1
      0 nonasync_impl_fn rfl rfl⟩

/-- Claim C9: a deferred impl method has its stored body rewrapped as one
`async move` block and gains `#[must_use]` plus the rich lint-suppression
set; a deferred trait method with a default body has that body rewrapped
the same way and gains `#[must_use]` plus the rich set; a deferred trait
method without a default body gains `#[must_use]` plus the narrow set. -/
theorem c9_bodies_wrapped_and_marked (config : AsyncBounds) (f : ImplItemFn)
    (g h : TraitItemFn) (b : Block)
    (hf : f.sig.asyncness = true)
    (hg : g.sig.asyncness = true) (hgb : g.default = some b)
    (hh : h.sig.asyncness = true) (hhb : h.default = none) :
    (ImplItemFn.desugar_async config f).block = Block.asyncMove f.block ∧
    Attr.mustUse ∈ (ImplItemFn.desugar_async config f).attrs ∧
    Attr.allowRich ∈ (ImplItemFn.desugar_async config f).attrs ∧
    (TraitItemFn.desugar_async config g).default = some (Block.asyncMove b) ∧
    Attr.mustUse ∈ (TraitItemFn.desugar_async config g).attrs ∧
    Attr.allowRich ∈ (TraitItemFn.desugar_async config g).attrs ∧
    (TraitItemFn.desugar_async config h).default = none ∧
    Attr.mustUse ∈ (TraitItemFn.desugar_async config h).attrs ∧
    Attr.allowNarrow ∈ (TraitItemFn.desugar_async config h).attrs := by
  simp [ImplItemFn.desugar_async, TraitItemFn.desugar_async, hf, hg, hgb, hh, hhb]

/-- Witness for C9 at concrete deferred methods: an impl method with body,
a trait method with a default body, and a bodiless trait method. -/
theorem c9_witness :
    (ImplItemFn.desugar_async ⟨true, true⟩ async_impl_fn).block
        = Block.asyncMove async_impl_fn.block ∧
    Attr.mustUse ∈ (ImplItemFn.desugar_async ⟨true, true⟩ async_impl_fn).attrs ∧
    Attr.allowRich ∈ (ImplItemFn.desugar_async ⟨true, true⟩ async_impl_fn).attrs ∧
    (TraitItemFn.desugar_async ⟨true, true⟩ async_default_fn).default
        = some (Block.asyncMove sample_body) ∧
    Attr.mustUse ∈ (TraitItemFn.desugar_async ⟨true, true⟩ async_default_fn).attrs ∧
    Attr.allowRich ∈ (TraitItemFn.desugar_async ⟨true, true⟩ async_default_fn).attrs ∧
    (TraitItemFn.desugar_async ⟨true, true⟩ async_required_fn).default = none ∧
    Attr.mustUse ∈ (TraitItemFn.desugar_async ⟨true, true⟩ async_required_fn).attrs ∧
    Attr.allowNarrow ∈ (TraitItemFn.desugar_async ⟨true, true⟩ async_required_fn).attrs :=
  c9_bodies_wrapped_and_marked ⟨true, true⟩ async_impl_fn async_default_fn
    async_required_fn sample_body rfl rfl rfl rfl rfl

/-- Every desugared trait method carries a cleared `async` flag, whether
or not the rewrite fired. -/
theorem trait_item_fn_clears_flag (config : AsyncBounds) (f : TraitItemFn) :
    (TraitItemFn.desugar_async config f).sig.asyncness = false := by
  unfold TraitItemFn.desugar_async
  cases hf : f.sig.asyncness with
  | false => simp [hf]
  | true => simp [hf, (desugar_async_frame config f.sig).1]

/-- Every desugared impl method carries a cleared `async` flag. -/
theorem impl_item_fn_clears_flag (config : AsyncBounds) (f : ImplItemFn) :
    (ImplItemFn.desugar_async config f).sig.asyncness = false := by
  unfold ImplItemFn.desugar_async
  cases hf : f.sig.asyncness with
  | false => simp [hf]
  | true => simp [hf, (desugar_async_frame config f.sig).1]

/-- Every desugared free function carries a cleared `async` flag. -/
theorem item_fn_clears_flag (config : AsyncBounds) (f : ItemFn) :
    (ItemFn.desugar_async config f).sig.asyncness = false := by
  unfold ItemFn.desugar_async
  cases hf : f.sig.asyncness with
  | false => simp [hf]
  | true => simp [hf, (desugar_async_frame config f.sig).1]

/-- A second desugaring of a trait method is the identity. -/
theorem trait_item_fn_idem (c c2 : AsyncBounds) (f : TraitItemFn) :
    TraitItemFn.desugar_async c2 (TraitItemFn.desugar_async c f)
      = TraitItemFn.desugar_async c f := by
  generalize hg : TraitItemFn.desugar_async c f = g
  have h : g.sig.asyncness = false := hg ▸ trait_item_fn_clears_flag c f
  rw [TraitItemFn.desugar_async, h]
  simp

/-- A second desugaring of an impl method is the identity. -/
theorem impl_item_fn_idem (c c2 : AsyncBounds) (f : ImplItemFn) :
    ImplItemFn.desugar_async c2 (ImplItemFn.desugar_async c f)
      = ImplItemFn.desugar_async c f := by
  generalize hg : ImplItemFn.desugar_async c f = g
  have h : g.sig.asyncness = false := hg ▸ impl_item_fn_clears_flag c f
  rw [ImplItemFn.desugar_async, h]
  simp

/-- A second desugaring of a free function is the identity. -/
theorem item_fn_idem (c c2 : AsyncBounds) (f : ItemFn) :
    ItemFn.desugar_async c2 (ItemFn.desugar_async c f) = ItemFn.desugar_async c f := by
  generalize hg : ItemFn.desugar_async c f = g
  have h : g.sig.asyncness = false := hg ▸ item_fn_clears_flag c f
  rw [ItemFn.desugar_async, h]
  simp

/-- A second pass of the trait walk step is the identity on every item. -/
theorem trait_walk_idem (c c2 : AsyncBounds) (item : TraitItem) :
    trait_walk c2 (trait_walk c item) = trait_walk c item := by
  cases item with
  | otherItem s => rfl
  | fn f =>
    cases hf : f.sig.asyncness with
    | false => simp [trait_walk, hf]
    | true =>
      simp [trait_walk, hf, trait_item_fn_clears_flag c f]

/-- A second pass of the impl walk step is the identity on every item. -/
theorem impl_walk_idem (c c2 : AsyncBounds) (item : ImplItem) :
    impl_walk c2 (impl_walk c item) = impl_walk c item := by
  cases item with
  | otherItem s => rfl
  | fn f =>
    cases hf : f.sig.asyncness with
    | false => simp [impl_walk, hf]
    | true =>
      simp [impl_walk, hf, impl_item_fn_clears_flag c f]

/-- Claim C10: the transformation is idempotent at the declaration level —
because every rewrite clears the `async` flag, a second application to the
output of a first one, under any configuration, finds no flagged method in
any of the four declaration shapes and returns the tree unchanged. -/
theorem c10_second_pass_is_identity (c c2 : AsyncBounds) (t : ItemTrait)
    (im : ItemImpl) (f : ItemFn) (tf : TraitItemFn) :
    ItemTrait.desugar_async c2 (ItemTrait.desugar_async c t)
        = ItemTrait.desugar_async c t ∧
    ItemImpl.desugar_async c2 (ItemImpl.desugar_async c im)
        = ItemImpl.desugar_async c im ∧
    ItemFn.desugar_async c2 (ItemFn.desugar_async c f) = ItemFn.desugar_async c f ∧
    TraitItemFn.desugar_async c2 (TraitItemFn.desugar_async c tf)
        = TraitItemFn.desugar_async c tf := by
  refine ⟨?_, ?_, item_fn_idem c c2 f, trait_item_fn_idem c c2 tf⟩
  · obtain ⟨idn, items, r⟩ := t
    simp only [ItemTrait.desugar_async, List.map_map, ItemTrait.mk.injEq, true_and, and_true]
    exact List.map_congr_left fun a _ => trait_walk_idem c c2 a
  · obtain ⟨st, items, r⟩ := im
    simp only [ItemImpl.desugar_async, List.map_map, ItemImpl.mk.injEq, true_and, and_true]
    exact List.map_congr_left fun a _ => impl_walk_idem c c2 a

end Bitte
